import Mathlib

/-!
Verification of the OptimizationBenchmark repository (files
`src/lib/benchmark.py` and `benchmarx/plotter.py`) against its
natural-language specification.

The Python code is shallowly embedded: the solver-driving loop
`Benchmark.__run_solver`, the per-method dispatch `Benchmark.run`, the metric
registry check, and the trace construction of `Plotter.plotly_figure` become
executable Lean functions over abstract solution/state types.  Numeric values
that only ever flow through comparisons (`state.error`, `tol`) are modelled as
rationals; jax just-in-time compilation is a performance detail with no
semantic content, so `jitted_update` and `update` are one function here.
-/

namespace OptBench

/-! ## The solver object seen by `Benchmark.__run_solver`

`__run_solver` receives either a `jaxopt` solver or an heir of
`CustomOptimizer`.  Both expose `init_state`, `update` and `maxiter`; a custom
solver additionally has `stop_criterion` and `x_init`, a built-in solver has a
`state.error` field.  `S` is the type of solution vectors, `σ` the type of
solver states; a Python `None` solution is `Option.none`. -/
structure Solver (S σ : Type) where
  /-- `issubclass(type(solver), custom_optimizer.CustomOptimizer)` -/
  custom_method : Bool
  /-- `solver.maxiter` -/
  maxiter : Nat
  /-- `solver.init_state(x_init, *args, **kwargs)` -/
  init_state : Option S → σ
  /-- `solver.update(sol, state, *args, **kwargs)` (jitted or not) -/
  update : Option S → σ → Option S × σ
  /-- `solver.stop_criterion(sol, state)` (custom solvers) -/
  stop_criterion : Option S → σ → Bool
  /-- `state.error` (built-in solver states) -/
  error : σ → ℚ
  /-- `solver.x_init` (custom solvers carry a default initial point) -/
  x_init : Option S

/-- The `result` dict built by `__run_solver`: one optional series per metric
key.  A key absent from the Python dict is `none`.  The wall-clock duration
stored under `"time"` carries no arithmetic content, so its entries are `Unit`.
`F` is the type of objective values `self.problem.f(sol)`. -/
structure SolverRun (S F : Type) where
  history_x : Option (List (Option S)) := none
  history_f : Option (List F) := none
  nit : Option (List Nat) := none
  errors : Option (List ℚ) := none
  time : Option (List Unit) := none
deriving DecidableEq

/-- Lines 74-75: `def stop_criterion(err, tol): return err < tol`. -/
def stop_criterion (err tol : ℚ) : Bool :=
  err < tol

/-- Line 79 tests `not custom_optimizer`, where `custom_optimizer` is the
module imported on line 13 of `benchmark.py` (not the local flag
`custom_method`).  A Python module object is truthy, so this constant records
that `bool(custom_optimizer) = True` and hence `not custom_optimizer` is
always `False`. -/
def custom_optimizer_is_truthy : Bool := true

/-- The literal `1e-3` of line 77, written in normalized numerator/denominator
form so that concrete runs evaluate inside the kernel. -/
def tol_default : ℚ := ⟨1, 1000, by decide, by decide⟩

theorem tol_default_eq : tol_default = 1/1000 := by
  rw [tol_default, Rat.mk'_eq_divInt, Rat.divInt_eq_div]; norm_num

/-- Lines 77-80: the tolerance the loop actually compares against.
`tol = 1e-3; if not custom_optimizer and 'tol' in kwargs: tol = kwargs['tol']`.
Because `custom_optimizer` names the imported module (truthy), the branch is
never taken and the result is always `1e-3`. -/
def run_solver_tol (kwargs_tol : Option ℚ) : ℚ :=
  if (!custom_optimizer_is_truthy) && kwargs_tol.isSome then
    kwargs_tol.getD tol_default
  else
    tol_default

/-- Lines 95-123: the per-iteration metric appends, executed after each
`update`.  `result["nit"][0] += 1` is an in-place update of element 0. -/
def append_metrics {S σ F : Type} (slv : Solver S σ) (f : Option S → F)
    (metrics : List String) (sol : Option S) (state : σ) (r : SolverRun S F) :
    SolverRun S F :=
  let r1 := if metrics.contains "history_x" then
      { r with history_x := some (r.history_x.getD [] ++ [sol]) } else r
  let r2 := if metrics.contains "history_f" then
      { r1 with history_f := some (r1.history_f.getD [] ++ [f sol]) } else r1
  let r3 := if metrics.contains "nit" then
      { r2 with nit := some (match r2.nit with
          | none => [1]
          | some l => l.set 0 (l.headD 0 + 1)) } else r2
  -- "nfev", "njev", "nhev" are explicit no-ops (`pass`) in the source.
  let r4 := if metrics.contains "errors" then
      { r3 with errors := some (r3.errors.getD [] ++ [slv.error state]) } else r3
  r4

/-- Lines 84-88: the early-exit test at the top of iteration `i`.  The two
`if` statements under `if i > 0:` are folded into one boolean. -/
def loop_halts {S σ : Type} (slv : Solver S σ) (tol : ℚ) (i : Nat)
    (sol : Option S) (state : σ) : Bool :=
  decide (0 < i) &&
    ((!slv.custom_method && stop_criterion (slv.error state) tol) ||
     (slv.custom_method && slv.stop_criterion sol state))

/-- Lines 83-123: `for i in range(solver.maxiter): ...` with the early break.
`fuel` is the number of remaining range elements, `i` the current index. -/
def run_solver_loop {S σ F : Type} (slv : Solver S σ) (f : Option S → F)
    (metrics : List String) (tol : ℚ) :
    Nat → Nat → Option S → σ → SolverRun S F → SolverRun S F
  | 0, _, _, _, r => r
  | fuel + 1, i, sol, state, r =>
    if loop_halts slv tol i sol state then r
    else
      run_solver_loop slv f metrics tol fuel (i + 1)
        (slv.update sol state).1 (slv.update sol state).2
        (append_metrics slv f metrics (slv.update sol state).1
          (slv.update sol state).2 r)

/-- Lines 59-64: the initial `(sol, state)` pair.
`state = solver.init_state(x_init); sol = x_init;`
`if custom_method and sol is None: sol = solver.x_init`. -/
def init_pair {S σ : Type} (slv : Solver S σ) (x_init : Option S) :
    Option S × σ :=
  (if slv.custom_method && x_init.isNone then slv.x_init else x_init,
   slv.init_state x_init)

/-- `Benchmark.__run_solver` (lines 48-128).  Of the `kwargs` only `'tol'` is
read by the loop, so it is passed as `kwargs_tol`.  The final `"time"` entry
(lines 124-126) is recorded after the loop. -/
def run_solver {S σ F : Type} (slv : Solver S σ) (f : Option S → F)
    (x_init : Option S) (metrics : List String) (kwargs_tol : Option ℚ) :
    SolverRun S F :=
  let r := run_solver_loop slv f metrics (run_solver_tol kwargs_tol)
    slv.maxiter 0 (init_pair slv x_init).1 (init_pair slv x_init).2 {}
  if metrics.contains "time" then { r with time := some [()] } else r

/-- Number of loop bodies executed by `run_solver_loop` (update steps
performed): same recursion, counting instead of accumulating. -/
def run_solver_steps {S σ : Type} (slv : Solver S σ) (tol : ℚ) :
    Nat → Nat → Option S → σ → Nat
  | 0, _, _, _ => 0
  | fuel + 1, i, sol, state =>
    if loop_halts slv tol i sol state then 0
    else
      run_solver_steps slv tol fuel (i + 1)
        (slv.update sol state).1 (slv.update sol state).2 + 1

/-- Number of update steps performed by `run_solver` on the given inputs. -/
def nsteps {S σ : Type} (slv : Solver S σ) (x_init : Option S)
    (kwargs_tol : Option ℚ) : Nat :=
  run_solver_steps slv (run_solver_tol kwargs_tol) slv.maxiter 0
    (init_pair slv x_init).1 (init_pair slv x_init).2

/-- `n`-fold iteration of `solver.update` from a `(sol, state)` pair: the
solution/state reached after `n` unconditional update steps. -/
def iter_update {S σ : Type} (slv : Solver S σ) :
    Nat → Option S × σ → Option S × σ
  | 0, p => p
  | n + 1, p => iter_update slv n (slv.update p.1 p.2)

/-! ### Characterizing the loop -/

theorem append_metrics_history_x {S σ F : Type} (slv : Solver S σ)
    (f : Option S → F) (metrics : List String) (sol : Option S) (state : σ)
    (r : SolverRun S F) :
    (append_metrics slv f metrics sol state r).history_x =
      if metrics.contains "history_x" then
        some (r.history_x.getD [] ++ [sol])
      else r.history_x := by
  by_cases h1 : "history_x" ∈ metrics <;>
    by_cases h2 : "history_f" ∈ metrics <;>
      by_cases h3 : "nit" ∈ metrics <;>
        by_cases h4 : "errors" ∈ metrics <;>
          simp [append_metrics, h1, h2, h3, h4]

theorem append_metrics_history_f {S σ F : Type} (slv : Solver S σ)
    (f : Option S → F) (metrics : List String) (sol : Option S) (state : σ)
    (r : SolverRun S F) :
    (append_metrics slv f metrics sol state r).history_f =
      if metrics.contains "history_f" then
        some (r.history_f.getD [] ++ [f sol])
      else r.history_f := by
  by_cases h1 : "history_x" ∈ metrics <;>
    by_cases h2 : "history_f" ∈ metrics <;>
      by_cases h3 : "nit" ∈ metrics <;>
        by_cases h4 : "errors" ∈ metrics <;>
          simp [append_metrics, h1, h2, h3, h4]

theorem append_metrics_nit {S σ F : Type} (slv : Solver S σ)
    (f : Option S → F) (metrics : List String) (sol : Option S) (state : σ)
    (r : SolverRun S F) :
    (append_metrics slv f metrics sol state r).nit =
      if metrics.contains "nit" then
        some (match r.nit with
          | none => [1]
          | some l => l.set 0 (l.headD 0 + 1))
      else r.nit := by
  by_cases h1 : "history_x" ∈ metrics <;>
    by_cases h2 : "history_f" ∈ metrics <;>
      by_cases h3 : "nit" ∈ metrics <;>
        by_cases h4 : "errors" ∈ metrics <;>
          simp [append_metrics, h1, h2, h3, h4]

theorem append_metrics_errors {S σ F : Type} (slv : Solver S σ)
    (f : Option S → F) (metrics : List String) (sol : Option S) (state : σ)
    (r : SolverRun S F) :
    (append_metrics slv f metrics sol state r).errors =
      if metrics.contains "errors" then
        some (r.errors.getD [] ++ [slv.error state])
      else r.errors := by
  by_cases h1 : "history_x" ∈ metrics <;>
    by_cases h2 : "history_f" ∈ metrics <;>
      by_cases h3 : "nit" ∈ metrics <;>
        by_cases h4 : "errors" ∈ metrics <;>
          simp [append_metrics, h1, h2, h3, h4]

theorem append_metrics_time {S σ F : Type} (slv : Solver S σ)
    (f : Option S → F) (metrics : List String) (sol : Option S) (state : σ)
    (r : SolverRun S F) :
    (append_metrics slv f metrics sol state r).time = r.time := by
  by_cases h1 : "history_x" ∈ metrics <;>
    by_cases h2 : "history_f" ∈ metrics <;>
      by_cases h3 : "nit" ∈ metrics <;>
        by_cases h4 : "errors" ∈ metrics <;>
          simp [append_metrics, h1, h2, h3, h4]

/-- The guard of the loop is false on iteration 0: both stop tests sit under
`if i > 0:`. -/
theorem loop_halts_zero {S σ : Type} (slv : Solver S σ) (tol : ℚ)
    (sol : Option S) (state : σ) : loop_halts slv tol 0 sol state = false := by
  simp [loop_halts]

/-- The loop body cannot run more often than the remaining range length. -/
theorem run_solver_steps_le {S σ : Type} (slv : Solver S σ) (tol : ℚ) :
    ∀ fuel i sol state, run_solver_steps slv tol fuel i sol state ≤ fuel := by
  intro fuel
  induction fuel with
  | zero => intro i sol state; simp [run_solver_steps]
  | succ fuel ih =>
    intro i sol state
    rw [run_solver_steps]
    by_cases hh : loop_halts slv tol i sol state
    · simp [hh]
    · simp only [hh, if_neg, Bool.false_eq_true, if_false]
      exact Nat.succ_le_succ (ih _ _ _)

/-- Splitting off the first element of `List.range (n+1)` under an
`iter_update` image of the solutions. -/
theorem range_map_iter_fst {S σ : Type} (slv : Solver S σ)
    (n : Nat) (sol : Option S) (state : σ) :
    (List.range (n + 1)).map (fun k => (iter_update slv (k + 1) (sol, state)).1) =
      (slv.update sol state).1 ::
        (List.range n).map
          (fun k => (iter_update slv (k + 1) (slv.update sol state)).1) := by
  rw [List.range_succ_eq_map, List.map_cons, List.map_map]
  rfl

/-- Splitting off the first element of `List.range (n+1)` under the objective
values of an `iter_update` image. -/
theorem range_map_iter_f {S σ F : Type} (slv : Solver S σ) (f : Option S → F)
    (n : Nat) (sol : Option S) (state : σ) :
    (List.range (n + 1)).map
        (fun k => f (iter_update slv (k + 1) (sol, state)).1) =
      f (slv.update sol state).1 ::
        (List.range n).map
          (fun k => f (iter_update slv (k + 1) (slv.update sol state)).1) := by
  rw [List.range_succ_eq_map, List.map_cons, List.map_map]
  rfl

/-- Splitting off the first element of `List.range (n+1)` under the error
values of an `iter_update` image. -/
theorem range_map_iter_err {S σ : Type} (slv : Solver S σ)
    (n : Nat) (sol : Option S) (state : σ) :
    (List.range (n + 1)).map
        (fun k => slv.error (iter_update slv (k + 1) (sol, state)).2) =
      slv.error (slv.update sol state).2 ::
        (List.range n).map
          (fun k => slv.error (iter_update slv (k + 1) (slv.update sol state)).2) := by
  rw [List.range_succ_eq_map, List.map_cons, List.map_map]
  rfl

/-- What the loop leaves in `result["history_x"]`: one entry per executed
body, entry `k` being the solution after `k+1` update steps. -/
theorem run_solver_loop_history_x {S σ F : Type} (slv : Solver S σ)
    (f : Option S → F) (metrics : List String) (tol : ℚ) :
    ∀ fuel i sol state r,
      (run_solver_loop slv f metrics tol fuel i sol state r).history_x =
        if metrics.contains "history_x" then
          (if run_solver_steps slv tol fuel i sol state = 0 then r.history_x
           else some (r.history_x.getD [] ++
             (List.range (run_solver_steps slv tol fuel i sol state)).map
               (fun k => (iter_update slv (k + 1) (sol, state)).1)))
        else r.history_x := by
  intro fuel
  induction fuel with
  | zero =>
    intro i sol state r
    simp [run_solver_loop, run_solver_steps]
  | succ fuel ih =>
    intro i sol state r
    rw [run_solver_loop, run_solver_steps]
    by_cases hh : loop_halts slv tol i sol state
    · simp [hh]
    · simp only [hh, Bool.false_eq_true, if_false]
      rw [ih]
      by_cases hc : "history_x" ∈ metrics
      · by_cases hn : run_solver_steps slv tol fuel (i + 1)
            (slv.update sol state).1 (slv.update sol state).2 = 0
        · simp [hn, hc, append_metrics_history_x, iter_update, List.range_succ]
        · rw [range_map_iter_fst]
          simp [hn, hc, append_metrics_history_x, List.append_assoc]
      · simp [hc, append_metrics_history_x]

/-- What the loop leaves in `result["history_f"]`: entry `k` is the objective
evaluated at the solution after `k+1` update steps. -/
theorem run_solver_loop_history_f {S σ F : Type} (slv : Solver S σ)
    (f : Option S → F) (metrics : List String) (tol : ℚ) :
    ∀ fuel i sol state r,
      (run_solver_loop slv f metrics tol fuel i sol state r).history_f =
        if metrics.contains "history_f" then
          (if run_solver_steps slv tol fuel i sol state = 0 then r.history_f
           else some (r.history_f.getD [] ++
             (List.range (run_solver_steps slv tol fuel i sol state)).map
               (fun k => f (iter_update slv (k + 1) (sol, state)).1)))
        else r.history_f := by
  intro fuel
  induction fuel with
  | zero =>
    intro i sol state r
    simp [run_solver_loop, run_solver_steps]
  | succ fuel ih =>
    intro i sol state r
    rw [run_solver_loop, run_solver_steps]
    by_cases hh : loop_halts slv tol i sol state
    · simp [hh]
    · simp only [hh, Bool.false_eq_true, if_false]
      rw [ih]
      by_cases hc : "history_f" ∈ metrics
      · by_cases hn : run_solver_steps slv tol fuel (i + 1)
            (slv.update sol state).1 (slv.update sol state).2 = 0
        · simp [hn, hc, append_metrics_history_f, iter_update, List.range_succ]
        · rw [range_map_iter_f]
          simp [hn, hc, append_metrics_history_f, List.append_assoc]
      · simp [hc, append_metrics_history_f]

/-- What the loop leaves in `result["errors"]`: entry `k` is `state.error` of
the state after `k+1` update steps. -/
theorem run_solver_loop_errors {S σ F : Type} (slv : Solver S σ)
    (f : Option S → F) (metrics : List String) (tol : ℚ) :
    ∀ fuel i sol state r,
      (run_solver_loop slv f metrics tol fuel i sol state r).errors =
        if metrics.contains "errors" then
          (if run_solver_steps slv tol fuel i sol state = 0 then r.errors
           else some (r.errors.getD [] ++
             (List.range (run_solver_steps slv tol fuel i sol state)).map
               (fun k => slv.error (iter_update slv (k + 1) (sol, state)).2)))
        else r.errors := by
  intro fuel
  induction fuel with
  | zero =>
    intro i sol state r
    simp [run_solver_loop, run_solver_steps]
  | succ fuel ih =>
    intro i sol state r
    rw [run_solver_loop, run_solver_steps]
    by_cases hh : loop_halts slv tol i sol state
    · simp [hh]
    · simp only [hh, Bool.false_eq_true, if_false]
      rw [ih]
      by_cases hc : "errors" ∈ metrics
      · by_cases hn : run_solver_steps slv tol fuel (i + 1)
            (slv.update sol state).1 (slv.update sol state).2 = 0
        · simp [hn, hc, append_metrics_errors, iter_update, List.range_succ]
        · rw [range_map_iter_err]
          simp [hn, hc, append_metrics_errors, List.append_assoc]
      · simp [hc, append_metrics_errors]

/-- What the loop leaves in `result["nit"]`: the singleton counter grows by
exactly the number of executed bodies. -/
theorem run_solver_loop_nit {S σ F : Type} (slv : Solver S σ)
    (f : Option S → F) (metrics : List String) (tol : ℚ) :
    ∀ fuel i sol state r, (r.nit = none ∨ ∃ m, r.nit = some [m]) →
      (run_solver_loop slv f metrics tol fuel i sol state r).nit =
        if metrics.contains "nit" then
          (if run_solver_steps slv tol fuel i sol state = 0 then r.nit
           else some [(r.nit.getD []).headD 0 +
             run_solver_steps slv tol fuel i sol state])
        else r.nit := by
  intro fuel
  induction fuel with
  | zero =>
    intro i sol state r _
    simp [run_solver_loop, run_solver_steps]
  | succ fuel ih =>
    intro i sol state r hr
    rw [run_solver_loop, run_solver_steps]
    by_cases hh : loop_halts slv tol i sol state
    · simp [hh]
    · simp only [hh, Bool.false_eq_true, if_false]
      by_cases hc : "nit" ∈ metrics
      · have hr' : (append_metrics slv f metrics (slv.update sol state).1
            (slv.update sol state).2 r).nit =
            some [(r.nit.getD []).headD 0 + 1] := by
          rw [append_metrics_nit]
          rcases hr with h | ⟨m, h⟩ <;> simp [hc, h]
        rw [ih _ _ _ _ (Or.inr ⟨_, hr'⟩)]
        by_cases hn : run_solver_steps slv tol fuel (i + 1)
            (slv.update sol state).1 (slv.update sol state).2 = 0
        · simp [hc, hn, hr']
        · simp [hc, hn, hr']
          omega
      · have hr' : (append_metrics slv f metrics (slv.update sol state).1
            (slv.update sol state).2 r).nit = r.nit := by
          rw [append_metrics_nit]; simp [hc]
        have hshape : (append_metrics slv f metrics (slv.update sol state).1
            (slv.update sol state).2 r).nit = none ∨
            ∃ m, (append_metrics slv f metrics (slv.update sol state).1
              (slv.update sol state).2 r).nit = some [m] := by
          rw [hr']; exact hr
        rw [ih _ _ _ _ hshape]
        simp [hc, hr']

/-- Element `k` of the image of `List.range n` under `g`, for `k < n`. -/
theorem getD_range_map {α : Type} (g : Nat → α) (n k : Nat) (hk : k < n)
    (d : α) : ((List.range n).map g).getD k d = g k := by
  rw [List.getD_eq_getElem?_getD, List.getElem?_map, List.getElem?_range hk]
  rfl

/-- The loop never touches `result["time"]`. -/
theorem run_solver_loop_time {S σ F : Type} (slv : Solver S σ)
    (f : Option S → F) (metrics : List String) (tol : ℚ) :
    ∀ fuel i sol state r,
      (run_solver_loop slv f metrics tol fuel i sol state r).time = r.time := by
  intro fuel
  induction fuel with
  | zero =>
    intro i sol state r
    simp [run_solver_loop]
  | succ fuel ih =>
    intro i sol state r
    rw [run_solver_loop]
    by_cases hh : loop_halts slv tol i sol state
    · simp [hh]
    · simp only [hh, Bool.false_eq_true, if_false]
      rw [ih, append_metrics_time]

/-! ### `run_solver` summaries -/

/-- The `"history_x"` series returned by `run_solver`. -/
theorem run_solver_history_x {S σ F : Type} (slv : Solver S σ)
    (f : Option S → F) (x_init : Option S) (metrics : List String)
    (kwargs_tol : Option ℚ) :
    (run_solver slv f x_init metrics kwargs_tol).history_x =
      if metrics.contains "history_x" then
        (if nsteps slv x_init kwargs_tol = 0 then none
         else some ((List.range (nsteps slv x_init kwargs_tol)).map
           (fun k => (iter_update slv (k + 1) (init_pair slv x_init)).1)))
      else none := by
  have h := run_solver_loop_history_x slv f metrics (run_solver_tol kwargs_tol)
    slv.maxiter 0 (init_pair slv x_init).1 (init_pair slv x_init).2 {}
  cases ht : metrics.contains "time" <;>
    simp_all [run_solver, ht, nsteps, Prod.mk.eta]

/-- The `"history_f"` series returned by `run_solver`. -/
theorem run_solver_history_f {S σ F : Type} (slv : Solver S σ)
    (f : Option S → F) (x_init : Option S) (metrics : List String)
    (kwargs_tol : Option ℚ) :
    (run_solver slv f x_init metrics kwargs_tol).history_f =
      if metrics.contains "history_f" then
        (if nsteps slv x_init kwargs_tol = 0 then none
         else some ((List.range (nsteps slv x_init kwargs_tol)).map
           (fun k => f (iter_update slv (k + 1) (init_pair slv x_init)).1)))
      else none := by
  have h := run_solver_loop_history_f slv f metrics (run_solver_tol kwargs_tol)
    slv.maxiter 0 (init_pair slv x_init).1 (init_pair slv x_init).2 {}
  cases ht : metrics.contains "time" <;>
    simp_all [run_solver, ht, nsteps, Prod.mk.eta]

/-- The `"errors"` series returned by `run_solver`. -/
theorem run_solver_errors {S σ F : Type} (slv : Solver S σ)
    (f : Option S → F) (x_init : Option S) (metrics : List String)
    (kwargs_tol : Option ℚ) :
    (run_solver slv f x_init metrics kwargs_tol).errors =
      if metrics.contains "errors" then
        (if nsteps slv x_init kwargs_tol = 0 then none
         else some ((List.range (nsteps slv x_init kwargs_tol)).map
           (fun k => slv.error (iter_update slv (k + 1) (init_pair slv x_init)).2)))
      else none := by
  have h := run_solver_loop_errors slv f metrics (run_solver_tol kwargs_tol)
    slv.maxiter 0 (init_pair slv x_init).1 (init_pair slv x_init).2 {}
  cases ht : metrics.contains "time" <;>
    simp_all [run_solver, ht, nsteps, Prod.mk.eta]

/-- The `"nit"` counter returned by `run_solver` equals the number of update
steps.  Empty when no step ran (the key is then never created). -/
theorem run_solver_nit {S σ F : Type} (slv : Solver S σ)
    (f : Option S → F) (x_init : Option S) (metrics : List String)
    (kwargs_tol : Option ℚ) :
    (run_solver slv f x_init metrics kwargs_tol).nit =
      if metrics.contains "nit" then
        (if nsteps slv x_init kwargs_tol = 0 then none
         else some [nsteps slv x_init kwargs_tol])
      else none := by
  have h := run_solver_loop_nit slv f metrics (run_solver_tol kwargs_tol)
    slv.maxiter 0 (init_pair slv x_init).1 (init_pair slv x_init).2 {}
    (Or.inl rfl)
  cases ht : metrics.contains "time" <;>
    simp_all [run_solver, ht, nsteps, Prod.mk.eta]

/-! ## Claims about `__run_solver` -/

/-- A built-in (non-custom) solver probing the tolerance handling:
`maxiter = 3`, and `state.error` is `1/200` (= 5e-3) after every update. -/
def gd_tol_probe : Solver Unit ℚ where
  custom_method := false
  maxiter := 3
  init_state := fun _ => 1
  update := fun s _ => (s, ⟨1, 200, by decide, by decide⟩)
  stop_criterion := fun _ _ => false
  error := id
  x_init := none

/-- Claim C1 is refuted by the code: line 79 of `benchmark.py` tests
`not custom_optimizer` — the imported module, which is truthy — instead of
`not custom_method`, so the configured tolerance is never read and the loop
always compares `state.error` with the hard-coded `1e-3`.  Here a built-in
solver is run with configured tolerance `1/100` while `state.error = 1/200`
from the first step on: the claim predicts a break at `i = 1` (one update
step, `nit = [1]`), but the code performs all `maxiter = 3` steps because
`1/200 < 1/1000` is false. -/
theorem configured_tol_ignored :
    run_solver_tol (some ⟨1, 100, by decide, by decide⟩) = tol_default ∧
    stop_criterion ⟨1, 200, by decide, by decide⟩
      ⟨1, 100, by decide, by decide⟩ = true ∧
    (run_solver gd_tol_probe (fun _ => (0 : ℚ)) (some ()) ["nit"]
      (some ⟨1, 100, by decide, by decide⟩)).nit = some [3] :=
  ⟨by decide, by decide, by decide⟩

/-- Claim C2: the loop guard sits under `if i > 0:`, so no stop condition —
neither the error/tolerance comparison nor a custom `stop_criterion` — can
fire on iteration 0; whenever `maxiter ≥ 1`, at least one update step runs.
The solver (hence its stop predicate and error function) is universally
quantified, so even an always-true stop predicate cannot prevent the first
step. -/
theorem first_step_unconditional {S σ : Type} (slv : Solver S σ)
    (x_init : Option S) (kwargs_tol : Option ℚ) (h : 1 ≤ slv.maxiter) :
    1 ≤ nsteps slv x_init kwargs_tol ∧
    ∀ (tol : ℚ) (sol : Option S) (state : σ),
      loop_halts slv tol 0 sol state = false := by
  constructor
  · obtain ⟨m, hm⟩ : ∃ m, slv.maxiter = m + 1 := ⟨slv.maxiter - 1, by omega⟩
    rw [nsteps, hm, run_solver_steps, loop_halts_zero]
    simp only [Bool.false_eq_true, if_false]
    exact Nat.le_add_left 1 _
  · exact fun tol sol state => loop_halts_zero slv tol sol state

/-- A custom solver whose `stop_criterion` always answers true. -/
def eager_stop_probe : Solver Unit Unit where
  custom_method := true
  maxiter := 1
  init_state := fun _ => ()
  update := fun s st => (s, st)
  stop_criterion := fun _ _ => true
  error := fun _ => 0
  x_init := some ()

/-- Witness for `first_step_unconditional` at a concrete custom solver that
always wants to stop: it still performs one update step. -/
theorem first_step_unconditional_witness :
    1 ≤ nsteps eager_stop_probe none none ∧
    ∀ (tol : ℚ) (sol : Option Unit) (state : Unit),
      loop_halts eager_stop_probe tol 0 sol state = false :=
  first_step_unconditional eager_stop_probe none none (by decide)

/-- Claim C3: the number of update steps never exceeds `solver.maxiter` (the
loop is `for i in range(solver.maxiter)`), and the `"nit"` counter returned by
`run_solver` records exactly that number of steps. -/
theorem steps_le_maxiter {S σ F : Type} (slv : Solver S σ) (f : Option S → F)
    (x_init : Option S) (metrics : List String) (kwargs_tol : Option ℚ) :
    nsteps slv x_init kwargs_tol ≤ slv.maxiter ∧
    (metrics.contains "nit" = true →
      (run_solver slv f x_init metrics kwargs_tol).nit =
        if nsteps slv x_init kwargs_tol = 0 then none
        else some [nsteps slv x_init kwargs_tol]) := by
  refine ⟨run_solver_steps_le slv _ slv.maxiter 0 _ _, fun hnit => ?_⟩
  rw [run_solver_nit, if_pos hnit]

/-- Witness for `steps_le_maxiter` at a concrete solver with `maxiter = 3`
whose stop test never fires: exactly 3 steps are counted. -/
theorem steps_le_maxiter_witness :
    nsteps gd_tol_probe (some ()) none ≤ 3 ∧
    (run_solver gd_tol_probe (fun _ => (0 : ℚ)) (some ()) ["nit"] none).nit =
      some [3] := by
  have h := steps_le_maxiter gd_tol_probe (fun _ => (0 : ℚ)) (some ())
    ["nit"] none
  refine ⟨h.1, ?_⟩
  rw [h.2 (by decide)]
  decide

/-- Claim C4: when `"history_x"` and `"history_f"` are requested, both series
have one entry per completed loop iteration; the `"nit"` counter (when
requested) holds the same number; entry `k` of `"history_x"` is the solution
after `k+1` update steps and entry `k` of `"history_f"` is the objective
evaluated at that solution.  A run with zero completed iterations never
creates the keys, which is read as an empty series (`Option.getD []`). -/
theorem history_matches_iterates {S σ F : Type} (slv : Solver S σ)
    (f : Option S → F) (x_init : Option S) (metrics : List String)
    (kwargs_tol : Option ℚ)
    (hx : metrics.contains "history_x" = true)
    (hf : metrics.contains "history_f" = true) :
    ((run_solver slv f x_init metrics kwargs_tol).history_x.getD []).length =
      nsteps slv x_init kwargs_tol ∧
    ((run_solver slv f x_init metrics kwargs_tol).history_f.getD []).length =
      nsteps slv x_init kwargs_tol ∧
    (metrics.contains "nit" = true →
      (run_solver slv f x_init metrics kwargs_tol).nit =
        if nsteps slv x_init kwargs_tol = 0 then none
        else some [nsteps slv x_init kwargs_tol]) ∧
    ∀ k, k < nsteps slv x_init kwargs_tol → ∀ (dx : Option S) (df : F),
      ((run_solver slv f x_init metrics kwargs_tol).history_x.getD []).getD
          k dx =
        (iter_update slv (k + 1) (init_pair slv x_init)).1 ∧
      ((run_solver slv f x_init metrics kwargs_tol).history_f.getD []).getD
          k df =
        f (iter_update slv (k + 1) (init_pair slv x_init)).1 := by
  refine ⟨?_, ?_, fun hnit => ?_, fun k hk dx df => ?_⟩
  · rw [run_solver_history_x, if_pos hx]
    by_cases hn : nsteps slv x_init kwargs_tol = 0
    · simp [hn]
    · simp [hn]
  · rw [run_solver_history_f, if_pos hf]
    by_cases hn : nsteps slv x_init kwargs_tol = 0
    · simp [hn]
    · simp [hn]
  · rw [run_solver_nit, if_pos hnit]
  · have hn : nsteps slv x_init kwargs_tol ≠ 0 := by omega
    rw [run_solver_history_x, if_pos hx, if_neg hn,
      run_solver_history_f, if_pos hf, if_neg hn]
    constructor
    · simpa using getD_range_map
        (fun k => (iter_update slv (k + 1) (init_pair slv x_init)).1) _ k hk dx
    · simpa using getD_range_map
        (fun k => f (iter_update slv (k + 1) (init_pair slv x_init)).1) _ k hk df

/-- Witness for `history_matches_iterates` at a concrete 3-step run. -/
theorem history_matches_iterates_witness :
    ((run_solver gd_tol_probe (fun _ => (0 : ℚ)) (some ())
        ["history_x", "history_f", "nit"] none).history_x.getD []).length = 3 ∧
    ((run_solver gd_tol_probe (fun _ => (0 : ℚ)) (some ())
        ["history_x", "history_f", "nit"] none).history_f.getD []).length = 3 ∧
    (run_solver gd_tol_probe (fun _ => (0 : ℚ)) (some ())
        ["history_x", "history_f", "nit"] none).nit = some [3] ∧
    ((run_solver gd_tol_probe (fun _ => (0 : ℚ)) (some ())
        ["history_x", "history_f", "nit"] none).history_x.getD []).getD 1 none =
      (iter_update gd_tol_probe 2 (init_pair gd_tol_probe (some ()))).1 := by
  have h := history_matches_iterates gd_tol_probe (fun _ => (0 : ℚ)) (some ())
    ["history_x", "history_f", "nit"] none (by decide) (by decide)
  refine ⟨?_, ?_, ?_, ?_⟩
  · rw [h.1]; decide
  · rw [h.2.1]; decide
  · rw [h.2.2.1 (by decide)]; decide
  · exact (h.2.2.2 1 (by decide) none 0).1

/-! ## `Benchmark.run` (lines 130-156)

`run` iterates over the configured methods (a Python list of one-key dicts,
modelled as a flat association list of name/params pairs — iteration order is
identical), dispatches on the name prefix `'GRADIENT_DESCENT'`, pops
`'x_init'` out of the params dict, and calls `__run_solver`.  The two solver
calls are opaque at this level — `jaxopt.GradientDescent(fun=..., **params)`
is an external library object and the numeric content of `__run_solver` is
analysed separately above — so `run` is parameterized by the functions
`solve_b` (built-in branch, line 145) and `solve_u` (user branch, line 153),
which receive exactly what the call sites pass: the popped `x_init` and the
remaining params.  An `Except.error` result models the solver loop raising.
`V` is the type of Python parameter values, `Sub` the type of per-method
results, `E` the type of raised exceptions. -/

/-- A method's parameter dict, `dict[str, any]`, as an association list. -/
abbrev Params (V : Type) : Type := List (String × V)

/-- `params['x_init']` lookup (`'x_init' in params` / `params['x_init']`). -/
def params_get {V : Type} (k : String) (ps : Params V) : Option V :=
  List.lookup k ps

/-- `params.pop(k)`: remove the entry for `k`. -/
def dict_pop {V : Type} (k : String) (ps : Params V) : Params V :=
  List.filter (fun p => p.1 != k) ps

/-- `d[k] = v` on a Python dict modelled as an association list: overwrite in
place if present, append otherwise. -/
def dict_insert {V : Type} (k : String) (v : V) :
    List (String × V) → List (String × V)
  | [] => [(k, v)]
  | p :: ps => if p.1 == k then (k, v) :: ps else p :: dict_insert k v ps

/-- The observable execution state of one `Benchmark.run` call.
`res_methods` is `res.methods` (appended before the solver runs, line 139/148);
`data` is the inner dict `data[self.problem]`; `invoked` records which methods
reached their `__run_solver` call; `failed` names the method whose solver
raised (if any); `err` the pending exception; `methods_out` the contents of
`self.methods` after processing (observing the in-place `params.pop`). -/
structure RunState (V Sub E : Type) where
  res_methods : List String := []
  data : List (String × Sub) := []
  invoked : List String := []
  failed : Option String := none
  err : Option E := none
  methods_out : List (String × List (String × V)) := []
deriving DecidableEq

/-- Line 138: `method.startswith('GRADIENT_DESCENT')`.  `String.startsWith`
is implemented on byte positions, which the kernel cannot evaluate on
concrete strings, so the same check is done on the underlying character
lists. -/
def starts_with_gd (m : String) : Bool :=
  List.isPrefixOf "GRADIENT_DESCENT".data m.data

/-- Lines 140-143 / 149-152: the params dict after the conditional
`params.pop('x_init')` — unchanged when `'x_init'` is absent. -/
def popped_params {V : Type} (mp : String × Params V) : Params V :=
  if (params_get "x_init" mp.2).isSome then dict_pop "x_init" mp.2 else mp.2

/-- One pass of the `for method, params in item.items()` body (lines 136-154).
Once an exception is pending nothing more executes; the unprocessed
configuration is carried over unchanged. -/
def run_step {V Sub E : Type}
    (solve_b solve_u : Option V → List (String × V) → Except E Sub)
    (user_method : Option Unit) (arr : V → V)
    (st : RunState V Sub E) (mp : String × List (String × V)) :
    RunState V Sub E :=
  if st.err.isSome then { st with methods_out := st.methods_out ++ [mp] }
  else if starts_with_gd mp.1 then
    -- lines 138-146
    match solve_b (params_get "x_init" mp.2) (popped_params mp) with
    | Except.ok sub =>
      { res_methods := st.res_methods ++ [mp.1]
        data := dict_insert mp.1 sub st.data
        invoked := st.invoked ++ [mp.1]
        failed := st.failed
        err := none
        methods_out := st.methods_out ++ [(mp.1, popped_params mp)] }
    | Except.error e =>
      { res_methods := st.res_methods ++ [mp.1]
        data := st.data
        invoked := st.invoked ++ [mp.1]
        failed := some mp.1
        err := some e
        methods_out := st.methods_out ++ [(mp.1, popped_params mp)] }
  else
    match user_method with
    | some _ =>
      -- lines 147-154; `jnp.array(params['x_init'])` is the opaque `arr`
      match solve_u ((params_get "x_init" mp.2).map arr) (popped_params mp) with
      | Except.ok sub =>
        { res_methods := st.res_methods ++ [mp.1]
          data := dict_insert mp.1 sub st.data
          invoked := st.invoked ++ [mp.1]
          failed := st.failed
          err := none
          methods_out := st.methods_out ++ [(mp.1, popped_params mp)] }
      | Except.error e =>
        { res_methods := st.res_methods ++ [mp.1]
          data := st.data
          invoked := st.invoked ++ [mp.1]
          failed := some mp.1
          err := some e
          methods_out := st.methods_out ++ [(mp.1, popped_params mp)] }
    | none => { st with methods_out := st.methods_out ++ [mp] }

/-- Processing a list of configured methods from a given state. -/
def run_core {V Sub E : Type}
    (solve_b solve_u : Option V → List (String × V) → Except E Sub)
    (user_method : Option Unit) (arr : V → V)
    (st : RunState V Sub E) (ms : List (String × List (String × V))) :
    RunState V Sub E :=
  ms.foldl (run_step solve_b solve_u user_method arr) st

/-- `Benchmark.run(user_method)`: process all configured methods starting
from the empty state. -/
def Benchmark_run {V Sub E : Type}
    (solve_b solve_u : Option V → List (String × V) → Except E Sub)
    (user_method : Option Unit) (arr : V → V)
    (ms : List (String × List (String × V))) : RunState V Sub E :=
  run_core solve_b solve_u user_method arr {} ms

/-- What the caller of `run` sees: the `BenchmarkResult` (its `methods` list
and the per-problem data dict, line 155-156) on normal return, or the
propagated exception. -/
def run_result {V Sub E : Type} (st : RunState V Sub E) :
    Except E (List String × List (String × Sub)) :=
  match st.err with
  | some e => Except.error e
  | none => Except.ok (st.res_methods, st.data)

/-! ### Characterizing `run` -/

theorem run_core_nil {V Sub E : Type}
    (sb su : Option V → List (String × V) → Except E Sub)
    (um : Option Unit) (arr : V → V) (st : RunState V Sub E) :
    run_core sb su um arr st [] = st := rfl

theorem run_core_cons {V Sub E : Type}
    (sb su : Option V → List (String × V) → Except E Sub)
    (um : Option Unit) (arr : V → V) (st : RunState V Sub E)
    (mp : String × Params V) (ms : List (String × Params V)) :
    run_core sb su um arr st (mp :: ms) =
      run_core sb su um arr (run_step sb su um arr st mp) ms := rfl

theorem run_core_append {V Sub E : Type}
    (sb su : Option V → List (String × V) → Except E Sub)
    (um : Option Unit) (arr : V → V) (st : RunState V Sub E)
    (l1 l2 : List (String × Params V)) :
    run_core sb su um arr st (l1 ++ l2) =
      run_core sb su um arr (run_core sb su um arr st l1) l2 :=
  List.foldl_append _ _ _ _

/-- Once an exception is pending, processing further methods changes nothing
(the exception propagates out of `run`, so the remaining loop body never
executes and the remaining configurations stay untouched). -/
theorem run_core_frozen {V Sub E : Type}
    (sb su : Option V → List (String × V) → Except E Sub)
    (um : Option Unit) (arr : V → V) :
    ∀ (ms : List (String × Params V)) (st : RunState V Sub E),
      st.err.isSome →
      run_core sb su um arr st ms =
        { st with methods_out := st.methods_out ++ ms } := by
  intro ms
  induction ms with
  | nil => intro st h; simp [run_core]
  | cons mp ms ih =>
    intro st h
    have hs : run_step sb su um arr st mp =
        { st with methods_out := st.methods_out ++ [mp] } := by
      simp [run_step, h]
    rw [run_core_cons, hs, ih _ (by simpa using h)]
    simp

/-- With no pending exception, a `run_step` either runs the method's solver
successfully, or runs it and records the raised exception, or silently skips
the method; in the first two cases `'x_init'` has been popped from the
stored configuration. -/
theorem run_step_cases {V Sub E : Type}
    (sb su : Option V → List (String × V) → Except E Sub)
    (um : Option Unit) (arr : V → V) (st : RunState V Sub E)
    (mp : String × Params V) (h : st.err = none) :
    (∃ sub, run_step sb su um arr st mp =
      { res_methods := st.res_methods ++ [mp.1]
        data := dict_insert mp.1 sub st.data
        invoked := st.invoked ++ [mp.1]
        failed := st.failed
        err := none
        methods_out := st.methods_out ++ [(mp.1, popped_params mp)] }) ∨
    (∃ e, run_step sb su um arr st mp =
      { res_methods := st.res_methods ++ [mp.1]
        data := st.data
        invoked := st.invoked ++ [mp.1]
        failed := some mp.1
        err := some e
        methods_out := st.methods_out ++ [(mp.1, popped_params mp)] }) ∨
    run_step sb su um arr st mp =
      { st with methods_out := st.methods_out ++ [mp] } := by
  rw [run_step.eq_def]
  simp only [h, Option.isSome_none, Bool.false_eq_true, if_false]
  by_cases hp : starts_with_gd mp.1
  · simp only [hp, if_true]
    cases hsb : sb (params_get "x_init" mp.2) (popped_params mp) with
    | ok sub => exact Or.inl ⟨sub, rfl⟩
    | error e => exact Or.inr (Or.inl ⟨e, rfl⟩)
  · simp only [hp, Bool.false_eq_true, if_false]
    cases um with
    | some u =>
      cases hsu : su ((params_get "x_init" mp.2).map arr) (popped_params mp) with
      | ok sub => exact Or.inl ⟨sub, rfl⟩
      | error e => exact Or.inr (Or.inl ⟨e, rfl⟩)
    | none => exact Or.inr (Or.inr rfl)

/-- With `user_method = None`, a method whose name does not start with
`'GRADIENT_DESCENT'` is skipped: nothing is run, appended or recorded. -/
theorem run_step_skip {V Sub E : Type}
    (sb su : Option V → List (String × V) → Except E Sub)
    (arr : V → V) (st : RunState V Sub E) (mp : String × Params V)
    (h : starts_with_gd mp.1 = false) :
    run_step sb su none arr st mp =
      { st with methods_out := st.methods_out ++ [mp] } := by
  by_cases herr : st.err.isSome
  · simp [run_step, herr]
  · simp [run_step, herr, h]

/-- Keys after a Python dict assignment `d[k] = v`. -/
theorem dict_insert_keys {V : Type} (k : String) (v : V) :
    ∀ l : List (String × V),
      ((dict_insert k v l).map Prod.fst).toFinset =
        insert k ((l.map Prod.fst).toFinset) := by
  intro l
  induction l with
  | nil => simp [dict_insert]
  | cons p ps ih =>
    rw [dict_insert]
    by_cases hk : p.1 == k
    · have : p.1 = k := by simpa using hk
      simp [hk, this]
    · simp only [hk, Bool.false_eq_true, if_false, List.map_cons,
        List.toFinset_cons, ih]
      rw [Finset.Insert.comm]

theorem mem_dict_insert_keys {V : Type} (k m : String) (v : V)
    (l : List (String × V)) (h : m ∈ (dict_insert k v l).map Prod.fst) :
    m = k ∨ m ∈ l.map Prod.fst := by
  have h2 := List.mem_toFinset.mpr h
  rw [dict_insert_keys] at h2
  rcases Finset.mem_insert.mp h2 with h3 | h3
  · exact Or.inl h3
  · exact Or.inr (List.mem_toFinset.mp h3)

/-- Set-level invariant behind claim C5: methods recorded in `res.methods`
are exactly the keys of the per-problem data dict, as long as no exception
interrupted the run. -/
theorem run_core_keys {V Sub E : Type}
    (sb su : Option V → List (String × V) → Except E Sub)
    (um : Option Unit) (arr : V → V) :
    ∀ (ms : List (String × Params V)) (st : RunState V Sub E),
      st.res_methods.toFinset = (st.data.map Prod.fst).toFinset →
      (run_core sb su um arr st ms).err = none →
      (run_core sb su um arr st ms).res_methods.toFinset =
        ((run_core sb su um arr st ms).data.map Prod.fst).toFinset := by
  intro ms
  induction ms with
  | nil => intro st h _; simpa [run_core_nil] using h
  | cons mp ms ih =>
    intro st h hf
    by_cases herr : st.err = none
    · rcases run_step_cases sb su um arr st mp herr with ⟨sub, hs⟩ | ⟨e, hs⟩ | hs
      · rw [run_core_cons, hs] at hf ⊢
        refine ih _ ?_ hf
        simp only [List.toFinset_append, dict_insert_keys]
        rw [h]
        simp [Finset.insert_eq, Finset.union_comm]
      · rw [run_core_cons, hs,
          run_core_frozen sb su um arr ms _ (by simp)] at hf
        simp at hf
      · rw [run_core_cons, hs] at hf ⊢
        exact ih _ (by simpa using h) hf
    · rw [run_core_frozen sb su um arr (mp :: ms) st
        (Option.isSome_iff_ne_none.mpr herr)] at hf
      exact absurd hf herr

/-- Claim C5: on a completed (exception-free) `run`, the set of method names
in `res.methods` equals the key set of the per-problem data mapping.  Methods
failing validation never reach `run` at all — `check_method`/`check_metric`
failure exits in the constructor — and skipped or failing methods are covered
by this invariant. -/
theorem res_methods_eq_data_keys {V Sub E : Type}
    (sb su : Option V → List (String × V) → Except E Sub)
    (um : Option Unit) (arr : V → V) (ms : List (String × Params V))
    (h : (Benchmark_run sb su um arr ms : RunState V Sub E).err = none) :
    (Benchmark_run sb su um arr ms).res_methods.toFinset =
      ((Benchmark_run sb su um arr ms).data.map Prod.fst).toFinset :=
  run_core_keys sb su um arr ms {} (by simp) h

/-- A solver runner answering `ok` on every configuration. -/
def ok_unit {V : Type} : Option V → List (String × V) → Except Unit Unit :=
  fun _ _ => Except.ok ()

/-- Two successfully-run gradient-descent configurations. -/
def ms_two_gd : List (String × Params Unit) :=
  [("GRADIENT_DESCENT_a", []), ("GRADIENT_DESCENT_b", [])]

/-- Witness for `res_methods_eq_data_keys` on a concrete two-method run. -/
theorem res_methods_eq_data_keys_witness :
    (Benchmark_run ok_unit ok_unit none id ms_two_gd).res_methods.toFinset =
      ((Benchmark_run ok_unit ok_unit none id ms_two_gd).data.map
        Prod.fst).toFinset :=
  res_methods_eq_data_keys ok_unit ok_unit none id ms_two_gd (by decide)

/-- After the first raising step, the run is over: the failing method got no
data entry, nothing further was invoked, and only the stored configurations
are carried through. -/
theorem run_core_error_stops {V Sub E : Type}
    (sb su : Option V → List (String × V) → Except E Sub)
    (um : Option Unit) (arr : V → V) (st : RunState V Sub E)
    (mp : String × Params V) (post : List (String × Params V))
    (h1 : st.err = none)
    (h2 : (run_step sb su um arr st mp).err.isSome) :
    run_core sb su um arr st (mp :: post) =
      { res_methods := st.res_methods ++ [mp.1]
        data := st.data
        invoked := st.invoked ++ [mp.1]
        failed := some mp.1
        err := (run_step sb su um arr st mp).err
        methods_out := st.methods_out ++ [(mp.1, popped_params mp)] ++ post } := by
  rcases run_step_cases sb su um arr st mp h1 with ⟨sub, hs⟩ | ⟨e, hs⟩ | hs
  · rw [hs] at h2; simp at h2
  · rw [run_core_cons, hs, run_core_frozen sb su um arr post _ (by simp)]
  · rw [hs] at h2; simp [h1] at h2

/-- Claim C6, amended: if the solver loop raises for one configured method
(the methods before it having completed), `run` itself raises — it returns no
`BenchmarkResult`; the failing method's entry is never added to the data dict
(which keeps exactly the entries of the methods completed before the
failure); the failing method was already appended to `res.methods`; and no
later-configured method is ever run. -/
theorem run_error_propagation {V Sub E : Type}
    (sb su : Option V → List (String × V) → Except E Sub)
    (um : Option Unit) (arr : V → V)
    (pre : List (String × Params V)) (mp : String × Params V)
    (post : List (String × Params V))
    (h1 : (Benchmark_run sb su um arr pre : RunState V Sub E).err = none)
    (h2 : (run_step sb su um arr (Benchmark_run sb su um arr pre) mp).err.isSome) :
    Benchmark_run sb su um arr (pre ++ mp :: post) =
      { res_methods := (Benchmark_run sb su um arr pre).res_methods ++ [mp.1]
        data := (Benchmark_run sb su um arr pre).data
        invoked := (Benchmark_run sb su um arr pre).invoked ++ [mp.1]
        failed := some mp.1
        err := (run_step sb su um arr (Benchmark_run sb su um arr pre) mp).err
        methods_out := (Benchmark_run sb su um arr pre).methods_out ++
          [(mp.1, popped_params mp)] ++ post } ∧
    ∃ e, run_result (Benchmark_run sb su um arr (pre ++ mp :: post)) =
      Except.error e := by
  have hmain : Benchmark_run sb su um arr (pre ++ mp :: post) =
      { res_methods := (Benchmark_run sb su um arr pre).res_methods ++ [mp.1]
        data := (Benchmark_run sb su um arr pre).data
        invoked := (Benchmark_run sb su um arr pre).invoked ++ [mp.1]
        failed := some mp.1
        err := (run_step sb su um arr (Benchmark_run sb su um arr pre) mp).err
        methods_out := (Benchmark_run sb su um arr pre).methods_out ++
          [(mp.1, popped_params mp)] ++ post } := by
    rw [Benchmark_run, run_core_append]
    exact run_core_error_stops sb su um arr _ mp post h1 h2
  refine ⟨hmain, ?_⟩
  obtain ⟨e, he⟩ := Option.isSome_iff_exists.mp h2
  exact ⟨e, by rw [hmain, run_result]; simp [he]⟩

/-- A runner that raises (with exception value `7`) exactly on configurations
carrying a `"boom"` parameter. -/
def gd_boom : Option Unit → List (String × Unit) → Except Nat Unit :=
  fun _ ps => if ps.isEmpty then Except.ok () else Except.error 7

/-- Three gradient-descent configurations; the second one's solver raises. -/
def ms_boom : List (String × Params Unit) :=
  [("GRADIENT_DESCENT_a", []), ("GRADIENT_DESCENT_b", [("boom", ())]),
   ("GRADIENT_DESCENT_c", [])]

/-- Claim C6 as stated is false on the code: when the loop of
`GRADIENT_DESCENT_b` raises, the later-configured `GRADIENT_DESCENT_c` is not
"unaffected" — it is never invoked, gets no data entry, and `run` returns no
result at all (the exception propagates, there is no try/except in `run`). -/
theorem failing_method_aborts_rest_cex :
    (Benchmark_run gd_boom gd_boom none id ms_boom).failed =
      some "GRADIENT_DESCENT_b" ∧
    "GRADIENT_DESCENT_c" ∉ (Benchmark_run gd_boom gd_boom none id ms_boom).invoked ∧
    "GRADIENT_DESCENT_c" ∉
      ((Benchmark_run gd_boom gd_boom none id ms_boom).data.map Prod.fst) ∧
    run_result (Benchmark_run gd_boom gd_boom none id ms_boom) =
      Except.error 7 := by
  refine ⟨by decide, by decide, by decide, ?_⟩
  rfl

/-- Witness for `run_error_propagation` on the concrete three-method run
whose second method raises. -/
theorem run_error_propagation_witness :
    Benchmark_run gd_boom gd_boom none id
      ([("GRADIENT_DESCENT_a", [])] ++
        ("GRADIENT_DESCENT_b", [("boom", ())]) :: [("GRADIENT_DESCENT_c", [])]) =
      { res_methods := (Benchmark_run gd_boom gd_boom none id
          [("GRADIENT_DESCENT_a", [])]).res_methods ++ ["GRADIENT_DESCENT_b"]
        data := (Benchmark_run gd_boom gd_boom none id
          [("GRADIENT_DESCENT_a", [])]).data
        invoked := (Benchmark_run gd_boom gd_boom none id
          [("GRADIENT_DESCENT_a", [])]).invoked ++ ["GRADIENT_DESCENT_b"]
        failed := some "GRADIENT_DESCENT_b"
        err := (run_step gd_boom gd_boom none id
          (Benchmark_run gd_boom gd_boom none id [("GRADIENT_DESCENT_a", [])])
          ("GRADIENT_DESCENT_b", [("boom", ())])).err
        methods_out := (Benchmark_run gd_boom gd_boom none id
          [("GRADIENT_DESCENT_a", [])]).methods_out ++
          [("GRADIENT_DESCENT_b",
            popped_params ("GRADIENT_DESCENT_b", [("boom", ())]))] ++
          [("GRADIENT_DESCENT_c", [])] } ∧
    ∃ e, run_result (Benchmark_run gd_boom gd_boom none id
      ([("GRADIENT_DESCENT_a", [])] ++
        ("GRADIENT_DESCENT_b", [("boom", ())]) :: [("GRADIENT_DESCENT_c", [])])) =
      Except.error e :=
  run_error_propagation gd_boom gd_boom none id
    [("GRADIENT_DESCENT_a", [])] ("GRADIENT_DESCENT_b", [("boom", ())])
    [("GRADIENT_DESCENT_c", [])] (by decide) (by decide)

/-- How one stored method configuration can change across `run`: the name is
never changed, and the parameter mapping is either untouched or has exactly
its `'x_init'` entry removed (and is untouched whenever it holds no
`'x_init'` entry). -/
def config_change {V : Type} (orig out : String × Params V) : Prop :=
  out.1 = orig.1 ∧
  (out.2 = orig.2 ∨ out.2 = dict_pop "x_init" orig.2) ∧
  (params_get "x_init" orig.2 = none → out.2 = orig.2)

theorem config_change_refl {V : Type} (mp : String × Params V) :
    config_change mp mp :=
  ⟨rfl, Or.inl rfl, fun _ => rfl⟩

theorem config_change_popped {V : Type} (mp : String × Params V) :
    config_change mp (mp.1, popped_params mp) := by
  refine ⟨rfl, ?_, ?_⟩
  · rw [popped_params]
    by_cases hx : (params_get "x_init" mp.2).isSome
    · simp [hx]
    · simp [hx]
  · intro hnone
    rw [popped_params, hnone]
    simp

theorem run_step_methods_out {V Sub E : Type}
    (sb su : Option V → List (String × V) → Except E Sub)
    (um : Option Unit) (arr : V → V) (st : RunState V Sub E)
    (mp : String × Params V) :
    ∃ out, (run_step sb su um arr st mp).methods_out =
        st.methods_out ++ [out] ∧ config_change mp out := by
  by_cases herr : st.err = none
  · rcases run_step_cases sb su um arr st mp herr with ⟨sub, hs⟩ | ⟨e, hs⟩ | hs
    · exact ⟨(mp.1, popped_params mp), by rw [hs], config_change_popped mp⟩
    · exact ⟨(mp.1, popped_params mp), by rw [hs], config_change_popped mp⟩
    · exact ⟨mp, by rw [hs], config_change_refl mp⟩
  · refine ⟨mp, ?_, config_change_refl mp⟩
    simp [run_step, Option.isSome_iff_ne_none.mpr herr]

theorem run_core_methods_out {V Sub E : Type}
    (sb su : Option V → List (String × V) → Except E Sub)
    (um : Option Unit) (arr : V → V) :
    ∀ (ms : List (String × Params V)) (st : RunState V Sub E),
      ∃ outs, (run_core sb su um arr st ms).methods_out =
          st.methods_out ++ outs ∧ List.Forall₂ config_change ms outs := by
  intro ms
  induction ms with
  | nil => intro st; exact ⟨[], by simp [run_core_nil], List.Forall₂.nil⟩
  | cons mp ms ih =>
    intro st
    obtain ⟨out, hout, hch⟩ := run_step_methods_out sb su um arr st mp
    obtain ⟨outs, houts, hfa⟩ := ih (run_step sb su um arr st mp)
    refine ⟨out :: outs, ?_, List.Forall₂.cons hch hfa⟩
    rw [run_core_cons, houts, hout]
    simp

/-- Claim C8, amended: `run` keeps every configuration's name and leaves each
parameter mapping unchanged except that a mapping containing `'x_init'` may
have exactly that entry removed (`params.pop('x_init')`, lines 143/152);
mappings without `'x_init'` are always unchanged. -/
theorem run_params_only_x_init_popped {V Sub E : Type}
    (sb su : Option V → List (String × V) → Except E Sub)
    (um : Option Unit) (arr : V → V) (ms : List (String × Params V)) :
    List.Forall₂ config_change ms
      ((Benchmark_run sb su um arr ms : RunState V Sub E)).methods_out := by
  obtain ⟨outs, h, hfa⟩ :=
    run_core_methods_out sb su um arr ms ({} : RunState V Sub E)
  rw [Benchmark_run, h]
  simpa using hfa

/-- A configuration carrying an `'x_init'` entry. -/
def ms_with_x_init : List (String × Params Nat) :=
  [("GRADIENT_DESCENT_a", [("x_init", 5), ("tol", 7)])]

/-- Claim C8 as stated is false on the code: running a method whose
configuration contains `'x_init'` removes that entry from the stored
configuration (`params.pop('x_init')` mutates the dict held in
`self.methods`), so after `run` the mapping differs from the one it was
constructed with. -/
theorem run_mutates_params_cex :
    (Benchmark_run ok_unit ok_unit none id ms_with_x_init).methods_out =
      [("GRADIENT_DESCENT_a", [("tol", 7)])] ∧
    (Benchmark_run ok_unit ok_unit none id ms_with_x_init).methods_out ≠
      ms_with_x_init := by
  decide

/-- Witness for `run_params_only_x_init_popped` on a concrete run. -/
theorem run_params_only_x_init_popped_witness :
    List.Forall₂ config_change ms_with_x_init
      (Benchmark_run ok_unit ok_unit none id ms_with_x_init).methods_out :=
  run_params_only_x_init_popped ok_unit ok_unit none id ms_with_x_init

/-- All names ever recorded by a `user_method = None` run carry the
`'GRADIENT_DESCENT'` prefix. -/
def gd_named {V Sub E : Type} (st : RunState V Sub E) : Prop :=
  (∀ m ∈ st.res_methods, starts_with_gd m = true) ∧
  (∀ m ∈ st.invoked, starts_with_gd m = true) ∧
  (∀ m ∈ st.data.map Prod.fst, starts_with_gd m = true)

theorem run_step_gd_named {V Sub E : Type}
    (sb su : Option V → List (String × V) → Except E Sub)
    (arr : V → V) (st : RunState V Sub E) (mp : String × Params V)
    (h : gd_named st) : gd_named (run_step sb su none arr st mp) := by
  by_cases herr : st.err = none
  · by_cases hp : starts_with_gd mp.1
    · rcases run_step_cases sb su none arr st mp herr with
        ⟨sub, hs⟩ | ⟨e, hs⟩ | hs <;> rw [hs]
      · refine ⟨fun m hm => ?_, fun m hm => ?_, fun m hm => ?_⟩
        · rcases List.mem_append.mp hm with hm | hm
          · exact h.1 m hm
          · rw [List.mem_singleton.mp hm]; exact hp
        · rcases List.mem_append.mp hm with hm | hm
          · exact h.2.1 m hm
          · rw [List.mem_singleton.mp hm]; exact hp
        · rcases mem_dict_insert_keys mp.1 m sub st.data hm with hm | hm
          · rw [hm]; exact hp
          · exact h.2.2 m hm
      · refine ⟨fun m hm => ?_, fun m hm => ?_, fun m hm => h.2.2 m hm⟩
        · rcases List.mem_append.mp hm with hm | hm
          · exact h.1 m hm
          · rw [List.mem_singleton.mp hm]; exact hp
        · rcases List.mem_append.mp hm with hm | hm
          · exact h.2.1 m hm
          · rw [List.mem_singleton.mp hm]; exact hp
      · exact h
    · rw [run_step_skip sb su arr st mp (by simpa using hp)]
      exact h
  · have hs : run_step sb su none arr st mp =
        { st with methods_out := st.methods_out ++ [mp] } := by
      simp [run_step, Option.isSome_iff_ne_none.mpr herr]
    rw [hs]
    exact h

theorem run_core_gd_named {V Sub E : Type}
    (sb su : Option V → List (String × V) → Except E Sub) (arr : V → V) :
    ∀ (ms : List (String × Params V)) (st : RunState V Sub E),
      gd_named st → gd_named (run_core sb su none arr st ms) := by
  intro ms
  induction ms with
  | nil => intro st h; simpa [run_core_nil] using h
  | cons mp ms ih =>
    intro st h
    rw [run_core_cons]
    exact ih _ (run_step_gd_named sb su arr st mp h)

theorem run_core_all_skip {V Sub E : Type}
    (sb su : Option V → List (String × V) → Except E Sub) (arr : V → V) :
    ∀ (ms : List (String × Params V)) (st : RunState V Sub E),
      (∀ mp ∈ ms, starts_with_gd mp.1 = false) →
      run_core sb su none arr st ms =
        { st with methods_out := st.methods_out ++ ms } := by
  intro ms
  induction ms with
  | nil => intro st _; simp [run_core_nil]
  | cons mp ms ih =>
    intro st h
    rw [run_core_cons, run_step_skip sb su arr st mp (h mp (by simp)),
      ih _ (fun q hq => h q (by simp [hq]))]
    simp

/-- Claim C10: with `user_method = None`, every configured method whose name
does not start with `'GRADIENT_DESCENT'` is silently skipped — it is never
appended to `res.methods`, never invoked, and gets no entry in the data dict;
when no configured name has the prefix, `run` does nothing at all (no error,
empty result, configurations untouched). -/
theorem non_gd_methods_skipped {V Sub E : Type}
    (sb su : Option V → List (String × V) → Except E Sub) (arr : V → V)
    (ms : List (String × Params V)) :
    (∀ m : String, starts_with_gd m = false →
      m ∉ (Benchmark_run sb su none arr ms : RunState V Sub E).res_methods ∧
      m ∉ (Benchmark_run sb su none arr ms).invoked ∧
      m ∉ ((Benchmark_run sb su none arr ms).data.map Prod.fst)) ∧
    ((∀ mp ∈ ms, starts_with_gd mp.1 = false) →
      Benchmark_run sb su none arr ms = { methods_out := ms }) := by
  constructor
  · intro m hm
    have hinv := run_core_gd_named sb su arr ms ({} : RunState V Sub E)
      ⟨by simp, by simp, by simp⟩
    refine ⟨fun hc => ?_, fun hc => ?_, fun hc => ?_⟩
    · have hgot := hinv.1 m hc; rw [hm] at hgot; exact Bool.false_ne_true hgot
    · have hgot := hinv.2.1 m hc; rw [hm] at hgot; exact Bool.false_ne_true hgot
    · have hgot := hinv.2.2 m hc; rw [hm] at hgot; exact Bool.false_ne_true hgot
  · intro hall
    have hrun := run_core_all_skip sb su arr ms ({} : RunState V Sub E) hall
    simpa [Benchmark_run] using hrun

/-- A single non-gradient-descent configuration. -/
def ms_skip : List (String × Params Unit) := [("ADAM", [("x_init", ())])]

/-- Witness for `non_gd_methods_skipped` on a concrete `ADAM` configuration. -/
theorem non_gd_methods_skipped_witness :
    ("ADAM" ∉ (Benchmark_run ok_unit ok_unit none id ms_skip).res_methods ∧
     "ADAM" ∉ (Benchmark_run ok_unit ok_unit none id ms_skip).invoked ∧
     "ADAM" ∉ ((Benchmark_run ok_unit ok_unit none id ms_skip).data.map
       Prod.fst)) ∧
    Benchmark_run ok_unit ok_unit none id ms_skip = { methods_out := ms_skip } := by
  have h := non_gd_methods_skipped ok_unit ok_unit id ms_skip
  exact ⟨h.1 "ADAM" (by decide), h.2 (by decide)⟩

/-! ## The metric registry (`metrics.check_metric`)

`metrics.py` itself is not among the provided sources; only its caller
(`Benchmark.__init__`, lines 44-45) is.  The registry is therefore modelled
from the spec. -/

/-- Modelled from the spec: the fixed allow-list of metric names validated by
`check_metric` in `metrics.py` (file not in the sources).  The spec's runner
section names exactly the metrics the loop handles: iterate history,
function-value history, iteration count, the unimplemented
gradient/Hessian-evaluation counts, error history, and elapsed time. -/
def available_metrics : List String :=
  ["history_x", "history_f", "nit", "nfev", "njev", "nhev", "errors", "time"]

/-- Modelled from the spec: `check_metric(names) -> bool` fails closed — it
answers true iff every requested name is in the known set. -/
def check_metric (names : List String) : Bool :=
  names.all (fun n => available_metrics.contains n)

/-- `Benchmark.__init__` (lines 29-46): the constructor's validation.
`exit(1)` is modelled as `none`; `check_method` (also not in the sources) is
abstracted by its boolean outcome `methods_ok`.  On success the constructor
stores the metrics list. -/
def benchmark_init (methods_ok : Bool) (metrics : List String) :
    Option (List String) :=
  if !methods_ok then none
  else if !check_metric metrics then none
  else some metrics

theorem check_metric_eq_true_iff (names : List String) :
    check_metric names = true ↔ ∀ n ∈ names, n ∈ available_metrics := by
  simp [check_metric]

/-- Claim C7: `check_metric` fails closed — false exactly when some requested
name is outside the known set, true exactly when all are inside; its answer
depends only on the set of requested names (hence is independent of order and
duplicates); and a false answer makes the constructor abort (`exit(1)`,
modelled as `none`). -/
theorem check_metric_fails_closed (names : List String) :
    (check_metric names = false ↔ ∃ n ∈ names, n ∉ available_metrics) ∧
    (check_metric names = true ↔ ∀ n ∈ names, n ∈ available_metrics) ∧
    (∀ names' : List String, names.toFinset = names'.toFinset →
      check_metric names = check_metric names') ∧
    (∀ methods_ok, check_metric names = false →
      benchmark_init methods_ok names = none) := by
  have himp : ∀ l1 l2 : List String, (∀ n, n ∈ l1 ↔ n ∈ l2) →
      check_metric l2 = true → check_metric l1 = true := fun l1 l2 hm h =>
    (check_metric_eq_true_iff l1).mpr
      (fun n hn => (check_metric_eq_true_iff l2).mp h n ((hm n).mp hn))
  refine ⟨?_, check_metric_eq_true_iff names, ?_, ?_⟩
  · constructor
    · intro hfalse
      by_contra hno
      push_neg at hno
      have htrue := (check_metric_eq_true_iff names).mpr hno
      rw [hfalse] at htrue
      exact Bool.false_ne_true htrue
    · rintro ⟨n, hn, hnot⟩
      cases hc : check_metric names with
      | false => rfl
      | true => exact absurd ((check_metric_eq_true_iff names).mp hc n hn) hnot
  · intro names' he
    have hmem : ∀ n, n ∈ names ↔ n ∈ names' := fun n => by
      rw [← List.mem_toFinset, he, List.mem_toFinset]
    cases hc : check_metric names' with
    | false =>
      cases hc2 : check_metric names with
      | false => rfl
      | true =>
        have h3 := himp names' names (fun n => (hmem n).symm) hc2
        rw [hc] at h3
        exact (Bool.false_ne_true h3).elim
    | true => exact himp names names' hmem hc
  · intro methods_ok hfalse
    cases methods_ok with
    | false => rfl
    | true => simp [benchmark_init, hfalse]

/-- Witness for `check_metric_fails_closed`: a list with an unknown name is
rejected and aborts the constructor; the answer ignores order and
duplicates. -/
theorem check_metric_fails_closed_witness :
    check_metric ["nit", "time", "nit"] = true ∧
    check_metric ["nit", "bogus"] = false ∧
    benchmark_init true ["nit", "bogus"] = none ∧
    check_metric ["time", "nit"] = check_metric ["nit", "time", "nit"] := by
  have h := check_metric_fails_closed ["nit", "bogus"]
  have h2 := check_metric_fails_closed ["time", "nit"]
  have hbad : check_metric ["nit", "bogus"] = false :=
    h.1.mpr ⟨"bogus", by decide, by decide⟩
  exact ⟨by decide, hbad, h.2.2.2 true hbad, h2.2.2.1 ["nit", "time", "nit"] (by decide)⟩

/-! ## `Plotter.plotly_figure` (`benchmarx/plotter.py`, lines 28-159)

Only trace construction matters for the claims: a figure is modelled as its
list of traces in creation order.  The dataframe is modelled by its
`"Method"` column together with the per-method column series
(`method_df[colname]`). -/

/-- One entry of `dropdown_options`: `{"label": ..., "value": ...}`. -/
structure DropOption where
  label : String
  value : String
deriving DecidableEq

/-- The fields of a `go.Scatter` trace that the claims observe.  Marker,
color and fill styling carry no semantic content for visibility. -/
structure Trace where
  name : String
  hovertext : String
  visible : Bool
  x : List ℚ
  y : List ℚ
  showlegend : Bool
deriving DecidableEq

/-- The dataframe handed to `plotly_figure`: `dataframe["Method"]` and, for
each method, the series `method_df[c]` of column `c`. -/
structure DataFrame where
  method_col : List String
  col : String → String → List ℚ

/-- `dataframe["Method"].unique()`: first occurrence order. -/
def pd_unique (l : List String) : List String :=
  l.foldl (fun acc x => if acc.contains x then acc else acc ++ [x]) []

/-- Lines 79-115: the traces added for one method and one dropdown option —
the mean trace, then, when the std series is not uniformly zero, the upper
and lower band traces.  Every trace is created with
`visible = (option value == first option value)` (lines 87, 99, 113). -/
def option_traces (df : DataFrame) (first : DropOption) (m : String)
    (o : DropOption) : List Trace :=
  Trace.mk m (m ++ " - " ++ o.label) (o.value == first.value)
      (df.col m "Iteration") (df.col m (o.value ++ "_mean")) true ::
    (if (df.col m (o.value ++ "_std")).all (fun v => v == 0) then []
     else
       [Trace.mk "mean + std" (m ++ " - " ++ o.label ++ "_upper")
          (o.value == first.value) (df.col m "Iteration")
          (List.zipWith (fun a b => a + b) (df.col m (o.value ++ "_mean"))
            (df.col m (o.value ++ "_std"))) false,
        Trace.mk "mean - std" (m ++ " - " ++ o.label ++ "_lower")
          (o.value == first.value) (df.col m "Iteration")
          (List.zipWith (fun a b => a - b) (df.col m (o.value ++ "_mean"))
            (df.col m (o.value ++ "_std"))) false])

/-- All traces of one method: the inner `for option in dropdown_options`
loop.  `dropdown_options[0]` is only evaluated when the loop body runs, so
`headD` is faithful. -/
def method_traces (df : DataFrame) (opts : List DropOption) (m : String) :
    List Trace :=
  opts.flatMap (option_traces df (opts.headD ⟨"", ""⟩) m)

/-- `Plotter.plotly_figure`: the traces of the figure, in creation order
(outer loop over `dataframe["Method"].unique()`). -/
def plotly_figure (df : DataFrame) (opts : List DropOption) : List Trace :=
  (pd_unique df.method_col).flatMap (method_traces df opts)

theorem option_traces_visible (df : DataFrame) (first : DropOption)
    (m : String) (o : DropOption) :
    ∀ t ∈ option_traces df first m o, t.visible = (o.value == first.value) := by
  intro t ht
  rw [option_traces] at ht
  rcases List.mem_cons.mp ht with h | h
  · rw [h]
  · by_cases hz : (df.col m (o.value ++ "_std")).all (fun v => v == 0)
    · rw [if_pos hz] at h
      exact absurd h (List.not_mem_nil t)
    · rw [if_neg hz] at h
      rcases List.mem_cons.mp h with h2 | h2
      · rw [h2]
      · rcases List.mem_cons.mp h2 with h3 | h3
        · rw [h3]
        · exact absurd h3 (List.not_mem_nil t)

/-- A dataframe with two methods whose std column is not all zero. -/
def df_band : DataFrame where
  method_col := ["A", "B"]
  col := fun _ c => if c == "f_std" then [1, 1] else [2, 2]

/-- A single dropdown option. -/
def opts_one : List DropOption := [⟨"f", "f"⟩]

/-- Claim C9 as stated is false on the code: the std band traces of the first
dropdown option are also created with `visible = True` (lines 99 and 113 use
the same condition as line 87), so a two-method dataframe with a nonzero std
column yields three visible traces per method (six in this figure), not
exactly one per method. -/
theorem band_traces_visible_cex :
    ((method_traces df_band opts_one "A").filter (fun t => t.visible)).length
        = 3 ∧
    ¬ ((method_traces df_band opts_one "A").filter
        (fun t => t.visible)).length = 1 ∧
    plotly_figure df_band opts_one =
      method_traces df_band opts_one "A" ++ method_traces df_band opts_one "B" ∧
    ((plotly_figure df_band opts_one).filter (fun t => t.visible)).length = 6 := by
  refine ⟨by decide, by decide, ?_, by decide⟩
  rfl

/-- Claim C9, amended: every trace created for a dropdown option whose value
differs from the first option's value is invisible (so any visible trace of
the figure comes from an option sharing the first option's value), and for
each method, exactly one of its traces is visible provided the first option's
std column for that method is uniformly zero (otherwise the first option's
two band traces are created visible as well, which is what refutes the claim
as stated) and no later option repeats the first option's value. -/
theorem plotly_visible_traces (df : DataFrame) (opts : List DropOption)
    (m : String) (first : DropOption) (rest : List DropOption)
    (hopts : opts = first :: rest)
    (hvals : ∀ o ∈ rest, o.value ≠ first.value)
    (hstd : (df.col m (first.value ++ "_std")).all (fun v => v == 0) = true) :
    ((method_traces df opts m).filter (fun t => t.visible)).length = 1 ∧
    (∀ o ∈ opts, o.value ≠ first.value →
      ∀ t ∈ option_traces df first m o, t.visible = false) ∧
    (∀ t ∈ plotly_figure df opts, t.visible = true →
      ∃ m' ∈ pd_unique df.method_col, ∃ o ∈ opts,
        o.value = first.value ∧ t ∈ option_traces df first m' o) := by
  subst hopts
  refine ⟨?_, ?_, ?_⟩
  · have h1 : ((option_traces df first m first).filter
        (fun t => t.visible)).length = 1 := by
      rw [option_traces, if_pos hstd]
      simp
    have h2 : (rest.flatMap (option_traces df first m)).filter
        (fun t => t.visible) = [] := by
      rw [List.filter_eq_nil_iff]
      intro t ht
      obtain ⟨o, ho, hto⟩ := List.mem_flatMap.mp ht
      have hv := option_traces_visible df first m o t hto
      rw [beq_eq_false_iff_ne.mpr (hvals o ho)] at hv
      simp [hv]
    rw [method_traces]
    simp only [List.headD_cons, List.flatMap_cons]
    rw [List.filter_append, List.length_append, h1, h2]
    simp
  · intro o _ hne t ht
    rw [option_traces_visible df first m o t ht]
    exact beq_eq_false_iff_ne.mpr hne
  · intro t ht hv
    obtain ⟨m', hm', ht2⟩ := List.mem_flatMap.mp ht
    rw [method_traces] at ht2
    simp only [List.headD_cons] at ht2
    obtain ⟨o, ho, ht3⟩ := List.mem_flatMap.mp ht2
    have hvo := option_traces_visible df first m' o t ht3
    rw [hv] at hvo
    exact ⟨m', hm', o, ho, eq_of_beq hvo.symm, ht3⟩

/-- A one-method dataframe whose every column is uniformly zero. -/
def df_flat : DataFrame where
  method_col := ["A"]
  col := fun _ _ => [0, 0]

/-- Two dropdown options with distinct values. -/
def opts_two : List DropOption := [⟨"f", "f"⟩, ⟨"g", "g"⟩]

/-- Witness for `plotly_visible_traces` on a concrete all-zero-std figure. -/
theorem plotly_visible_traces_witness :
    ((method_traces df_flat opts_two "A").filter (fun t => t.visible)).length
        = 1 ∧
    (∀ o ∈ opts_two, o.value ≠ (⟨"f", "f"⟩ : DropOption).value →
      ∀ t ∈ option_traces df_flat ⟨"f", "f"⟩ "A" o, t.visible = false) ∧
    (∀ t ∈ plotly_figure df_flat opts_two, t.visible = true →
      ∃ m' ∈ pd_unique df_flat.method_col, ∃ o ∈ opts_two,
        o.value = (⟨"f", "f"⟩ : DropOption).value ∧
        t ∈ option_traces df_flat ⟨"f", "f"⟩ m' o) :=
  plotly_visible_traces df_flat opts_two "A" ⟨"f", "f"⟩ [⟨"g", "g"⟩] rfl
    (by decide) (by decide)

end OptBench
